import Mathlib

/-!
# Verification of the alarm-clock-on-wheels control core

Shallow embedding of `src/alarm_clock_on_wheels.ino`: the shared globals
become a record `Clock`, each interrupt service routine becomes a pure
function on `Clock` (taking the `millis()` reading as an argument where the
ISR calls it), and the render loop `loop()` becomes a function returning
the next `Clock` together with a record of the peripheral commands issued
during the pass. `unsigned int` arithmetic is modelled as `Nat` reduced
`% 2^16` (AVR 16-bit `unsigned int`), `unsigned long` as `Nat` with the
wrap-around subtraction used by the debounce comparisons made explicit.
-/

set_option autoImplicit false
set_option maxRecDepth 100000

namespace AlarmClock

/-- `#define INITIAL_STATE 0` -/
def INITIAL_STATE : Nat := 0

/-- `#define SETTING_ALARM 1` -/
def SETTING_ALARM : Nat := 1

/-- `#define ALARM_SET 2` -/
def ALARM_SET : Nat := 2

/-- `#define ALARM_RINGING 3` -/
def ALARM_RINGING : Nat := 3

/-- `#define MINIMUM_TIME_BETWEEN_BUTTON_PRESSES_MILLIS 200` -/
def MINIMUM_TIME_BETWEEN_BUTTON_PRESSES_MILLIS : Nat := 200

/-- `#define NUMBER_OF_SECONDS_IN_A_MINUTE 60` -/
def NUMBER_OF_SECONDS_IN_A_MINUTE : Nat := 60

/-- `#define DEFAULT_SNOOZE_TIME_MINUTES 3` -/
def DEFAULT_SNOOZE_TIME_MINUTES : Nat := 3

/-- `#define BUZZING_TIME_MILLIS 3500` -/
def BUZZING_TIME_MILLIS : Nat := 3500

/-- Modulus of the AVR 16-bit `unsigned int` used for the second counters. -/
def UINT_MOD : Nat := 2 ^ 16

/-- Modulus of the AVR 32-bit `unsigned long` used for `millis()` values. -/
def ULONG_MOD : Nat := 2 ^ 32

/-- C `unsigned long` subtraction `a - b` (wrap-around modulo `2^32`), as it
appears in the debounce tests `current_time - last_..._push` and in the
motion-window test `millis() - current_direction_start`. -/
def wsub (a b : Nat) : Nat :=
  (a + (ULONG_MOD - b % ULONG_MOD)) % ULONG_MOD

/-- The shared global variables of the sketch (lines 30-52 of the source).
Peripheral objects (`rtc`, `lcd`) carry no control state and are omitted;
their operations are recorded as outputs of the loop instead. -/
structure Clock where
  last_yellow_button_push : Nat
  last_red_button_push : Nat
  last_blue_button_push : Nat
  seconds_passed : Nat
  seconds_for_alarm_start : Nat
  number_of_minutes_selected : Nat
  current_direction_start : Nat
  direction : Bool
  state : Nat
  changed_state : Bool
  force_lcd_clear : Bool
  deriving Repr, DecidableEq

/-- The global variables at boot: every numeric global is (explicitly or by
C++ zero-initialization of globals) 0, both flags false, state `INITIAL_STATE`. -/
def initClock : Clock where
  last_yellow_button_push := 0
  last_red_button_push := 0
  last_blue_button_push := 0
  seconds_passed := 0
  seconds_for_alarm_start := 0
  number_of_minutes_selected := 0
  current_direction_start := 0
  direction := false
  state := INITIAL_STATE
  changed_state := false
  force_lcd_clear := false

/-- `ISR(TIMER1_COMPA_vect)` (lines 55-61): advance `seconds_passed` by 2,
then, if the new value meets the target and the state is `ALARM_SET`,
increment the state and raise `changed_state`. -/
def timer1_compa (c : Clock) : Clock :=
  let c := { c with seconds_passed := (c.seconds_passed + 2) % UINT_MOD }
  if c.seconds_passed ≥ c.seconds_for_alarm_start ∧ c.state = ALARM_SET then
    { c with state := c.state + 1, changed_state := true }
  else c

/-- `ISR(INT0_vect)` (lines 64-76), the blue / confirm button. `t` is the
`millis()` reading taken at entry. -/
def int0 (t : Nat) (c : Clock) : Clock :=
  if wsub t c.last_blue_button_push ≥ MINIMUM_TIME_BETWEEN_BUTTON_PRESSES_MILLIS then
    let c := { c with last_blue_button_push := t }
    if c.state = SETTING_ALARM then
      { c with
          state := c.state + 1,
          changed_state := true,
          seconds_for_alarm_start :=
            (c.seconds_passed +
              NUMBER_OF_SECONDS_IN_A_MINUTE * c.number_of_minutes_selected) % UINT_MOD }
    else c
  else c

/-- `ISR(INT1_vect)` (lines 79-97), the red / decrease-or-stop button. The
two `if` blocks of the body run in sequence on the updated globals, exactly
as in the C source. -/
def int1 (t : Nat) (c : Clock) : Clock :=
  if wsub t c.last_red_button_push ≥ MINIMUM_TIME_BETWEEN_BUTTON_PRESSES_MILLIS then
    let c := { c with last_red_button_push := t }
    let c :=
      if c.state = SETTING_ALARM ∧ c.number_of_minutes_selected > 0 then
        let c := { c with number_of_minutes_selected := c.number_of_minutes_selected - 1 }
        if c.number_of_minutes_selected = 9 ∨ c.number_of_minutes_selected = 99 then
          { c with force_lcd_clear := true }
        else c
      else c
    if c.state = ALARM_RINGING then
      { c with state := INITIAL_STATE, changed_state := true }
    else c
  else c

/-- `ISR(PCINT2_vect)` (lines 100-127), the yellow / increase-or-snooze
button. `pd4low` models the `(PIND & (1 << PD4)) == 0` pin test; the three
`if` blocks of the body run in sequence on the updated globals, exactly as
in the C source. -/
def pcint2 (pd4low : Bool) (t : Nat) (c : Clock) : Clock :=
  if pd4low then
    if wsub t c.last_yellow_button_push ≥ MINIMUM_TIME_BETWEEN_BUTTON_PRESSES_MILLIS then
      let c := { c with last_yellow_button_push := t }
      let c :=
        if c.state = SETTING_ALARM then
          { c with number_of_minutes_selected := (c.number_of_minutes_selected + 1) % UINT_MOD }
        else c
      let c :=
        if c.state = INITIAL_STATE then
          { c with state := c.state + 1, changed_state := true, number_of_minutes_selected := 1 }
        else c
      if c.state = ALARM_RINGING then
        { c with
            state := ALARM_SET,
            changed_state := true,
            seconds_for_alarm_start :=
              (c.seconds_passed +
                DEFAULT_SNOOZE_TIME_MINUTES * NUMBER_OF_SECONDS_IN_A_MINUTE) % UINT_MOD }
      else c
    else c
  else c

/-- Motor commands issued through `move_forward`, `move_backward`, `stop_car`
(lines 235-260); the pin writes themselves are outside the core. -/
inductive MotorCmd where
  | forward
  | backward
  | stop
  deriving Repr, DecidableEq

/-- What the loop put on the 16x2 display during a pass. -/
inductive Render where
  | dateTime
  | alarmInfo
  | ringingInfo
  deriving Repr, DecidableEq

/-- The peripheral commands one pass of `loop()` issues. `buzzer = some true`
is `tone(...)`, `buzzer = some false` is `noTone(...)`; `none` fields mean
the loop did not touch that peripheral this pass. -/
structure LoopOut where
  lcdCleared : Bool
  forceCleared : Bool
  render : Option Render
  buzzer : Option Bool
  motor : Option MotorCmd
  deriving Repr, DecidableEq

/-- The part of `loop()` after the `changed_state` block (lines 277-315):
dispatch on the current state. -/
def loopRest (now : Nat) (c : Clock) (o : LoopOut) : Clock × LoopOut :=
  if c.state = ALARM_RINGING then
    let o := { o with render := some Render.ringingInfo }
    if wsub now c.current_direction_start ≥ BUZZING_TIME_MILLIS then
      ({ c with current_direction_start := now, direction := !c.direction }, o)
    else if c.direction then
      (c, { o with buzzer := some true, motor := some MotorCmd.forward })
    else
      (c, { o with buzzer := some false, motor := some MotorCmd.backward })
  else if c.state = INITIAL_STATE ∨ c.state = ALARM_SET then
    (c, { o with buzzer := some false, render := some Render.dateTime })
  else if c.state = SETTING_ALARM then
    if c.force_lcd_clear then
      ({ c with force_lcd_clear := false },
        { o with forceCleared := true, render := some Render.alarmInfo })
    else
      (c, { o with render := some Render.alarmInfo })
  else (c, o)

/-- One pass of `loop()` (lines 262-315). `now` is the `millis()` reading
during the pass. If `changed_state` is set the display is cleared and the
flag dropped; entering `ALARM_RINGING` resets the motion direction and its
window start and returns at once, every other state stops the car and falls
through to the state dispatch. -/
def loopPass (now : Nat) (c : Clock) : Clock × LoopOut :=
  if c.changed_state then
    let c := { c with changed_state := false }
    if c.state = ALARM_RINGING then
      ({ c with direction := false, current_direction_start := now },
        { lcdCleared := true, forceCleared := false,
          render := none, buzzer := none, motor := none })
    else
      loopRest now c
        { lcdCleared := true, forceCleared := false,
          render := none, buzzer := none, motor := some MotorCmd.stop }
  else
    loopRest now c
      { lcdCleared := false, forceCleared := false,
        render := none, buzzer := none, motor := none }

/-- The asynchronous events that mutate the shared state, plus a pass of the
polling loop. Button events carry the `millis()` reading at ISR entry. -/
inductive Event where
  | tick
  | blue (t : Nat)
  | red (t : Nat)
  | yellow (pd4low : Bool) (t : Nat)
  | pass (now : Nat)
  deriving Repr, DecidableEq

/-- Interpretation of one event. -/
def step (e : Event) (c : Clock) : Clock :=
  match e with
  | Event.tick => timer1_compa c
  | Event.blue t => int0 t c
  | Event.red t => int1 t c
  | Event.yellow p t => pcint2 p t c
  | Event.pass now => (loopPass now c).1

/-- Run a sequence of events from a starting state. -/
def run (evs : List Event) (c : Clock) : Clock :=
  evs.foldl (fun c e => step e c) c

/-- `n` consecutive timer ticks. -/
def tickN : Nat → Clock → Clock
  | 0, c => c
  | n + 1, c => timer1_compa (tickN n c)

example : (run [Event.yellow true 300, Event.yellow true 600, Event.yellow true 900,
    Event.blue 1200] initClock).state = ALARM_SET := by decide

example : (run [Event.yellow true 300, Event.yellow true 600, Event.yellow true 900,
    Event.blue 1200] initClock).seconds_for_alarm_start = 180 := by decide

example : (run [Event.yellow true 300, Event.yellow true 350] initClock).number_of_minutes_selected = 1 := by
  decide

example : (tickN 90 (run [Event.yellow true 300, Event.yellow true 600, Event.yellow true 900,
    Event.blue 1200] initClock)).state = ALARM_RINGING := by decide

example : (tickN 89 (run [Event.yellow true 300, Event.yellow true 600, Event.yellow true 900,
    Event.blue 1200] initClock)).state = ALARM_SET := by decide

/-- The three debounced inputs, named by their role in the state machine:
yellow = increase, red = decrease, blue = confirm. -/
inductive Trigger where
  | increase
  | decrease
  | confirm
  deriving Repr, DecidableEq

/-- Dispatch an accepted-or-not raw edge of a trigger to its ISR (for the
yellow button, with the PD4 pin actually signalling the edge). -/
def applyTrigger : Trigger → Nat → Clock → Clock
  | Trigger.increase, t, c => pcint2 true t c
  | Trigger.decrease, t, c => int1 t c
  | Trigger.confirm, t, c => int0 t c

/-- The debounce bookkeeping timestamp belonging to a trigger's input. -/
def lastPushOf : Trigger → Clock → Nat
  | Trigger.increase, c => c.last_yellow_button_push
  | Trigger.decrease, c => c.last_red_button_push
  | Trigger.confirm, c => c.last_blue_button_push

/-- The rows of the transition table of the spec (§4.2), as (state, trigger)
pairs: (Idle, increase), (SettingAlarm, increase/decrease/confirm),
(Ringing, increase/decrease). The tick-driven Armed→Ringing row has no
button trigger. -/
def inTransitionTable (s : Nat) (tr : Trigger) : Bool :=
  match tr with
  | Trigger.increase => s == INITIAL_STATE || s == SETTING_ALARM || s == ALARM_RINGING
  | Trigger.decrease => s == SETTING_ALARM || s == ALARM_RINGING
  | Trigger.confirm => s == SETTING_ALARM

lemma wsub_eq_sub {a b : Nat} (hb : b < ULONG_MOD) (hba : b ≤ a)
    (hd : a - b < ULONG_MOD) : wsub a b = a - b := by
  have hm : b % ULONG_MOD = b := Nat.mod_eq_of_lt hb
  rw [wsub, hm]
  have h1 : a + (ULONG_MOD - b) = (a - b) + ULONG_MOD := by omega
  rw [h1, Nat.add_mod_right]
  exact Nat.mod_eq_of_lt hd

lemma int0_rejected (t : Nat) (c : Clock)
    (h : ¬ wsub t c.last_blue_button_push ≥ MINIMUM_TIME_BETWEEN_BUTTON_PRESSES_MILLIS) :
    int0 t c = c := by
  simp only [int0, if_neg h]

lemma int1_rejected (t : Nat) (c : Clock)
    (h : ¬ wsub t c.last_red_button_push ≥ MINIMUM_TIME_BETWEEN_BUTTON_PRESSES_MILLIS) :
    int1 t c = c := by
  simp only [int1, if_neg h]

lemma pcint2_rejected (t : Nat) (c : Clock)
    (h : ¬ wsub t c.last_yellow_button_push ≥ MINIMUM_TIME_BETWEEN_BUTTON_PRESSES_MILLIS) :
    pcint2 true t c = c := by
  simp only [pcint2, if_pos, if_neg h, if_true]

lemma int0_last (t : Nat) (c : Clock)
    (h : wsub t c.last_blue_button_push ≥ MINIMUM_TIME_BETWEEN_BUTTON_PRESSES_MILLIS) :
    (int0 t c).last_blue_button_push = t := by
  simp only [int0, if_pos h]
  split <;> rfl

lemma int1_last (t : Nat) (c : Clock)
    (h : wsub t c.last_red_button_push ≥ MINIMUM_TIME_BETWEEN_BUTTON_PRESSES_MILLIS) :
    (int1 t c).last_red_button_push = t := by
  simp only [int1, if_pos h]
  split_ifs <;> rfl

lemma pcint2_last (t : Nat) (c : Clock)
    (h : wsub t c.last_yellow_button_push ≥ MINIMUM_TIME_BETWEEN_BUTTON_PRESSES_MILLIS) :
    (pcint2 true t c).last_yellow_button_push = t := by
  simp only [pcint2, if_pos h, if_true]
  split_ifs <;> rfl

lemma int0_other_lasts (t : Nat) (c : Clock) :
    (int0 t c).last_yellow_button_push = c.last_yellow_button_push ∧
    (int0 t c).last_red_button_push = c.last_red_button_push := by
  simp only [int0]
  split_ifs <;> exact ⟨rfl, rfl⟩

lemma int1_other_lasts (t : Nat) (c : Clock) :
    (int1 t c).last_yellow_button_push = c.last_yellow_button_push ∧
    (int1 t c).last_blue_button_push = c.last_blue_button_push := by
  simp only [int1]
  split_ifs <;> exact ⟨rfl, rfl⟩

lemma pcint2_other_lasts (p : Bool) (t : Nat) (c : Clock) :
    (pcint2 p t c).last_red_button_push = c.last_red_button_push ∧
    (pcint2 p t c).last_blue_button_push = c.last_blue_button_push := by
  simp only [pcint2]
  split_ifs <;> exact ⟨rfl, rfl⟩

/-- C3: from `ALARM_RINGING`, an accepted yellow-button (increase) edge
re-arms the alarm: the state becomes `ALARM_SET`, `changed_state` is raised,
and the target becomes the current `seconds_passed` plus 180 seconds
(`DEFAULT_SNOOZE_TIME_MINUTES * NUMBER_OF_SECONDS_IN_A_MINUTE`), regardless
of `number_of_minutes_selected` and of the previous target. -/
theorem snooze_rearms_with_fixed_offset (t : Nat) (c : Clock)
    (hs : c.state = ALARM_RINGING)
    (hacc : wsub t c.last_yellow_button_push ≥ MINIMUM_TIME_BETWEEN_BUTTON_PRESSES_MILLIS)
    (hov : c.seconds_passed + 180 < UINT_MOD) :
    (pcint2 true t c).state = ALARM_SET ∧
    (pcint2 true t c).changed_state = true ∧
    (pcint2 true t c).seconds_for_alarm_start = c.seconds_passed + 180 := by
  have hov2 : c.seconds_passed + 180 < 65536 := by
    have : UINT_MOD = 65536 := by decide
    omega
  simp [pcint2, hacc, hs, SETTING_ALARM, INITIAL_STATE, ALARM_RINGING, ALARM_SET,
    DEFAULT_SNOOZE_TIME_MINUTES, NUMBER_OF_SECONDS_IN_A_MINUTE, UINT_MOD]
  omega

/-- Witness for the snooze theorem at a concrete ringing state. -/
theorem snooze_rearms_with_fixed_offset_witness :
    (pcint2 true 500 { initClock with state := 3, seconds_passed := 40 }).state = ALARM_SET ∧
    (pcint2 true 500 { initClock with state := 3, seconds_passed := 40 }).changed_state = true ∧
    (pcint2 true 500 { initClock with state := 3, seconds_passed := 40 }).seconds_for_alarm_start
      = 40 + 180 :=
  snooze_rearms_with_fixed_offset 500 { initClock with state := 3, seconds_passed := 40 }
    rfl (by decide) (by decide)

/-- C7: an accepted red-button (decrease) edge in `SETTING_ALARM` leaves a
zero minute counter at zero; a positive counter `m + 1` is decremented to
`m`, and (when the flag was clear) the forced-display-clear flag ends up set
iff the decremented value is 9 or 99; the yellow-button (increase) ISR never
touches the forced-display-clear flag. -/
theorem decrease_guard_and_decade_clear (t : Nat) (c : Clock)
    (hs : c.state = SETTING_ALARM)
    (hacc : wsub t c.last_red_button_push ≥ MINIMUM_TIME_BETWEEN_BUTTON_PRESSES_MILLIS) :
    ((c.number_of_minutes_selected = 0 → (int1 t c).number_of_minutes_selected = 0) ∧
     (∀ m : Nat, c.number_of_minutes_selected = m + 1 →
        (int1 t c).number_of_minutes_selected = m ∧
        (c.force_lcd_clear = false →
          ((int1 t c).force_lcd_clear = true ↔ (m = 9 ∨ m = 99))))) ∧
    (∀ (p : Bool) (u : Nat) (d : Clock), (pcint2 p u d).force_lcd_clear = d.force_lcd_clear) := by
  constructor
  · constructor
    · intro hz
      simp [int1, hacc, hs, hz, SETTING_ALARM, ALARM_RINGING]
    · intro m hm
      simp [int1, hacc, hs, hm, SETTING_ALARM, ALARM_RINGING]
      split_ifs <;> simp_all
  · intro p u d
    by_cases hp : p
    · subst hp
      by_cases hy : wsub u d.last_yellow_button_push ≥ MINIMUM_TIME_BETWEEN_BUTTON_PRESSES_MILLIS
      · simp only [pcint2, if_pos hy, if_true]
        split_ifs <;> rfl
      · rw [pcint2_rejected u d hy]
    · simp [pcint2, hp]

/-- Witness for the decrease theorem: from 10 selected minutes, an accepted
decrease yields 9 and raises the forced-clear flag. -/
theorem decrease_guard_and_decade_clear_witness :
    (int1 500 { initClock with state := 1, number_of_minutes_selected := 10 }).number_of_minutes_selected = 9 ∧
    (int1 500 { initClock with state := 1, number_of_minutes_selected := 10 }).force_lcd_clear = true := by
  have h := decrease_guard_and_decade_clear 500
    { initClock with state := 1, number_of_minutes_selected := 10 } rfl (by decide)
  refine ⟨(h.1.2 9 rfl).1, ?_⟩
  exact ((h.1.2 9 rfl).2 rfl).mpr (Or.inl rfl)

/-- C2: for every (state, trigger) pair outside the transition table, an
accepted edge of that trigger leaves the state, the selected minutes, and
the alarm target unchanged. -/
theorem nontable_pairs_are_noops (tr : Trigger) (t : Nat) (c : Clock)
    (hnot : inTransitionTable c.state tr = false)
    (hacc : wsub t (lastPushOf tr c) ≥ MINIMUM_TIME_BETWEEN_BUTTON_PRESSES_MILLIS) :
    (applyTrigger tr t c).state = c.state ∧
    (applyTrigger tr t c).number_of_minutes_selected = c.number_of_minutes_selected ∧
    (applyTrigger tr t c).seconds_for_alarm_start = c.seconds_for_alarm_start := by
  cases tr with
  | increase =>
      simp only [inTransitionTable, INITIAL_STATE, SETTING_ALARM, ALARM_RINGING,
        Bool.or_eq_false_iff, beq_eq_false_iff_ne, ne_eq] at hnot
      obtain ⟨⟨h0, h1⟩, h3⟩ := hnot
      simp only [lastPushOf] at hacc
      simp [applyTrigger, pcint2, hacc, h0, h1, h3,
        INITIAL_STATE, SETTING_ALARM, ALARM_RINGING]
  | decrease =>
      simp only [inTransitionTable, SETTING_ALARM, ALARM_RINGING,
        Bool.or_eq_false_iff, beq_eq_false_iff_ne, ne_eq] at hnot
      obtain ⟨h1, h3⟩ := hnot
      simp only [lastPushOf] at hacc
      simp [applyTrigger, int1, hacc, h1, h3, SETTING_ALARM, ALARM_RINGING]
  | confirm =>
      simp only [inTransitionTable, SETTING_ALARM, beq_eq_false_iff_ne, ne_eq] at hnot
      simp only [lastPushOf] at hacc
      simp [applyTrigger, int0, hacc, hnot, SETTING_ALARM]

/-- Witness for the no-op theorem: an accepted confirm press in Idle changes
none of the three state-machine fields. -/
theorem nontable_pairs_are_noops_witness :
    (applyTrigger Trigger.confirm 500 initClock).state = initClock.state ∧
    (applyTrigger Trigger.confirm 500 initClock).number_of_minutes_selected
      = initClock.number_of_minutes_selected ∧
    (applyTrigger Trigger.confirm 500 initClock).seconds_for_alarm_start
      = initClock.seconds_for_alarm_start :=
  nontable_pairs_are_noops Trigger.confirm 500 initClock (by decide) (by decide)

/-- C4: the debounce gate of each input. With the input's last-accepted
timestamp no later than the edge time `t` (both inside one wrap period of
`millis()`), the code's acceptance test coincides with
`t - last ≥ 200`; a rejected edge changes nothing at all; an accepted edge
stores `t` as the input's new timestamp, touches no other input's
timestamp, and makes a second edge on the same input arriving within the
window a complete no-op, so the pair yields exactly one accepted event. -/
theorem debounce_gate_contract (tr : Trigger) (t t2 : Nat) (c : Clock)
    (hmono : lastPushOf tr c ≤ t) (ht : t < ULONG_MOD) :
    ((wsub t (lastPushOf tr c) ≥ MINIMUM_TIME_BETWEEN_BUTTON_PRESSES_MILLIS) ↔
      t - lastPushOf tr c ≥ MINIMUM_TIME_BETWEEN_BUTTON_PRESSES_MILLIS) ∧
    (t - lastPushOf tr c < MINIMUM_TIME_BETWEEN_BUTTON_PRESSES_MILLIS →
      applyTrigger tr t c = c) ∧
    (t - lastPushOf tr c ≥ MINIMUM_TIME_BETWEEN_BUTTON_PRESSES_MILLIS →
      lastPushOf tr (applyTrigger tr t c) = t) ∧
    (∀ tr2 : Trigger, tr2 ≠ tr →
      lastPushOf tr2 (applyTrigger tr t c) = lastPushOf tr2 c) ∧
    (t - lastPushOf tr c ≥ MINIMUM_TIME_BETWEEN_BUTTON_PRESSES_MILLIS → t ≤ t2 →
      t2 - t < MINIMUM_TIME_BETWEEN_BUTTON_PRESSES_MILLIS →
      applyTrigger tr t2 (applyTrigger tr t c) = applyTrigger tr t c) := by
  have hw : wsub t (lastPushOf tr c) = t - lastPushOf tr c :=
    wsub_eq_sub (lt_of_le_of_lt hmono ht) hmono (by omega)
  have hiff : (wsub t (lastPushOf tr c) ≥ MINIMUM_TIME_BETWEEN_BUTTON_PRESSES_MILLIS) ↔
      t - lastPushOf tr c ≥ MINIMUM_TIME_BETWEEN_BUTTON_PRESSES_MILLIS := by rw [hw]
  have hrej : ∀ (u : Nat) (d : Clock),
      ¬ wsub u (lastPushOf tr d) ≥ MINIMUM_TIME_BETWEEN_BUTTON_PRESSES_MILLIS →
      applyTrigger tr u d = d := by
    intro u d hu
    cases tr with
    | increase => exact pcint2_rejected u d (by simpa [lastPushOf] using hu)
    | decrease => exact int1_rejected u d (by simpa [lastPushOf] using hu)
    | confirm => exact int0_rejected u d (by simpa [lastPushOf] using hu)
  have hupd : ∀ h : t - lastPushOf tr c ≥ MINIMUM_TIME_BETWEEN_BUTTON_PRESSES_MILLIS,
      lastPushOf tr (applyTrigger tr t c) = t := by
    intro h
    have hacc := hiff.mpr h
    cases tr with
    | increase =>
        simpa [applyTrigger, lastPushOf] using
          pcint2_last t c (by simpa [lastPushOf] using hacc)
    | decrease =>
        simpa [applyTrigger, lastPushOf] using
          int1_last t c (by simpa [lastPushOf] using hacc)
    | confirm =>
        simpa [applyTrigger, lastPushOf] using
          int0_last t c (by simpa [lastPushOf] using hacc)
  refine ⟨hiff, ?_, hupd, ?_, ?_⟩
  · intro h
    exact hrej t c (by omega)
  · intro tr2 hne
    cases tr <;> cases tr2 <;> simp_all [applyTrigger, lastPushOf,
      int0_other_lasts, int1_other_lasts, pcint2_other_lasts]
  · intro h h12 h2
    have hl := hupd h
    apply hrej t2 (applyTrigger tr t c)
    have hlt : t2 - t < ULONG_MOD := by
      have h200 : MINIMUM_TIME_BETWEEN_BUTTON_PRESSES_MILLIS < ULONG_MOD := by decide
      omega
    rw [hl, wsub_eq_sub ht h12 hlt]
    omega

/-- Witness for the debounce theorem: on the blue input, an edge at 500 ms
after one at 300 ms (window 200 ms satisfied) is accepted and stores 500;
a further edge at 600 ms is swallowed. -/
theorem debounce_gate_contract_witness :
    lastPushOf Trigger.confirm
      (applyTrigger Trigger.confirm 500 { initClock with last_blue_button_push := 300 }) = 500 ∧
    applyTrigger Trigger.confirm 600
      (applyTrigger Trigger.confirm 500 { initClock with last_blue_button_push := 300 })
      = applyTrigger Trigger.confirm 500 { initClock with last_blue_button_push := 300 } := by
  have h := debounce_gate_contract Trigger.confirm 500 600
    { initClock with last_blue_button_push := 300 } (by decide) (by decide)
  exact ⟨h.2.2.1 (by decide), h.2.2.2.2 (by decide) (by decide) (by decide)⟩

lemma timer1_state_le (c : Clock) (h : c.state ≤ 3) : (timer1_compa c).state ≤ 3 := by
  simp only [timer1_compa]
  split_ifs with hc
  · have h2 : c.state = ALARM_SET := hc.2
    show c.state + 1 ≤ 3
    rw [h2]; decide
  · exact h

lemma int0_state_le (t : Nat) (c : Clock) (h : c.state ≤ 3) : (int0 t c).state ≤ 3 := by
  simp only [int0]
  split_ifs with h1 h2
  · have hs : c.state = SETTING_ALARM := h2
    show c.state + 1 ≤ 3
    rw [hs]; decide
  · exact h
  · exact h

lemma int1_state_le (t : Nat) (c : Clock) (h : c.state ≤ 3) : (int1 t c).state ≤ 3 := by
  simp only [int1]
  split_ifs <;> first | exact h | exact (by decide : INITIAL_STATE ≤ 3)

lemma pcint2_state_le (p : Bool) (t : Nat) (c : Clock) (h : c.state ≤ 3) :
    (pcint2 p t c).state ≤ 3 := by
  simp only [pcint2]
  split_ifs <;> simp_all [INITIAL_STATE, SETTING_ALARM, ALARM_SET, ALARM_RINGING]

lemma loopPass_state_eq (now : Nat) (c : Clock) : ((loopPass now c).1).state = c.state := by
  simp only [loopPass, loopRest]
  split_ifs <;> rfl

lemma step_state_le (e : Event) (c : Clock) (h : c.state ≤ 3) : (step e c).state ≤ 3 := by
  cases e with
  | tick => exact timer1_state_le c h
  | blue t => exact int0_state_le t c h
  | red t => exact int1_state_le t c h
  | yellow p t => exact pcint2_state_le p t c h
  | pass now => rw [step, loopPass_state_eq]; exact h

lemma run_state_le (evs : List Event) : ∀ c : Clock, c.state ≤ 3 → (run evs c).state ≤ 3 := by
  induction evs with
  | nil => intro c h; exact h
  | cons e evs ih => intro c h; exact ih (step e c) (step_state_le e c h)

/-- C9: from boot, no sequence of tick, button, or loop events drives the
shared `state` variable outside the four-value enumeration
{`INITIAL_STATE`, `SETTING_ALARM`, `ALARM_SET`, `ALARM_RINGING`}: every
`state++` is guarded by an equality test on a specific state and every
direct store writes a named state constant. -/
theorem state_always_in_enumeration (evs : List Event) :
    (run evs initClock).state = INITIAL_STATE ∨
    (run evs initClock).state = SETTING_ALARM ∨
    (run evs initClock).state = ALARM_SET ∨
    (run evs initClock).state = ALARM_RINGING := by
  have h := run_state_le evs initClock (by decide)
  simp only [INITIAL_STATE, SETTING_ALARM, ALARM_SET, ALARM_RINGING]
  omega

lemma timer1_even (c : Clock) (hs : 2 ∣ c.seconds_passed) :
    2 ∣ (timer1_compa c).seconds_passed ∧
    (timer1_compa c).seconds_for_alarm_start = c.seconds_for_alarm_start := by
  have key : 2 ∣ (c.seconds_passed + 2) % UINT_MOD := by
    have hU : UINT_MOD = 65536 := by decide
    rw [hU]; omega
  simp only [timer1_compa]
  split_ifs <;> exact ⟨key, rfl⟩

lemma int0_even (t : Nat) (c : Clock) (hs : 2 ∣ c.seconds_passed)
    (ht : 2 ∣ c.seconds_for_alarm_start) :
    (int0 t c).seconds_passed = c.seconds_passed ∧ 2 ∣ (int0 t c).seconds_for_alarm_start := by
  have key : 2 ∣ (c.seconds_passed +
      NUMBER_OF_SECONDS_IN_A_MINUTE * c.number_of_minutes_selected) % UINT_MOD := by
    have hU : UINT_MOD = 65536 := by decide
    have hN : NUMBER_OF_SECONDS_IN_A_MINUTE = 60 := by decide
    rw [hU, hN]; omega
  simp only [int0]
  split_ifs
  · exact ⟨rfl, key⟩
  · exact ⟨rfl, ht⟩
  · exact ⟨rfl, ht⟩

lemma int1_even (t : Nat) (c : Clock) :
    (int1 t c).seconds_passed = c.seconds_passed ∧
    (int1 t c).seconds_for_alarm_start = c.seconds_for_alarm_start := by
  simp only [int1]
  split_ifs <;> exact ⟨rfl, rfl⟩

lemma pcint2_even (p : Bool) (t : Nat) (c : Clock) (hs : 2 ∣ c.seconds_passed)
    (ht : 2 ∣ c.seconds_for_alarm_start) :
    (pcint2 p t c).seconds_passed = c.seconds_passed ∧
    2 ∣ (pcint2 p t c).seconds_for_alarm_start := by
  have key : 2 ∣ (c.seconds_passed +
      DEFAULT_SNOOZE_TIME_MINUTES * NUMBER_OF_SECONDS_IN_A_MINUTE) % UINT_MOD := by
    have hU : UINT_MOD = 65536 := by decide
    have hN : DEFAULT_SNOOZE_TIME_MINUTES * NUMBER_OF_SECONDS_IN_A_MINUTE = 180 := by decide
    rw [hU, hN]; omega
  simp only [pcint2]
  split_ifs <;> first | exact ⟨rfl, key⟩ | exact ⟨rfl, ht⟩

lemma loopPass_even (now : Nat) (c : Clock) :
    ((loopPass now c).1).seconds_passed = c.seconds_passed ∧
    ((loopPass now c).1).seconds_for_alarm_start = c.seconds_for_alarm_start := by
  simp only [loopPass, loopRest]
  split_ifs <;> exact ⟨rfl, rfl⟩

lemma step_even (e : Event) (c : Clock)
    (h : 2 ∣ c.seconds_passed ∧ 2 ∣ c.seconds_for_alarm_start) :
    2 ∣ (step e c).seconds_passed ∧ 2 ∣ (step e c).seconds_for_alarm_start := by
  cases e with
  | tick =>
      obtain ⟨h1, h2⟩ := timer1_even c h.1
      exact ⟨h1, h2 ▸ h.2⟩
  | blue t =>
      obtain ⟨h1, h2⟩ := int0_even t c h.1 h.2
      exact ⟨h1 ▸ h.1, h2⟩
  | red t =>
      obtain ⟨h1, h2⟩ := int1_even t c
      exact ⟨h1 ▸ h.1, h2 ▸ h.2⟩
  | yellow p t =>
      obtain ⟨h1, h2⟩ := pcint2_even p t c h.1 h.2
      exact ⟨h1 ▸ h.1, h2⟩
  | pass now =>
      obtain ⟨h1, h2⟩ := loopPass_even now c
      exact ⟨h1 ▸ h.1, h2 ▸ h.2⟩

lemma run_even (evs : List Event) : ∀ c : Clock,
    2 ∣ c.seconds_passed ∧ 2 ∣ c.seconds_for_alarm_start →
    2 ∣ (run evs c).seconds_passed ∧ 2 ∣ (run evs c).seconds_for_alarm_start := by
  induction evs with
  | nil => intro c h; exact h
  | cons e evs ih => intro c h; exact ih (step e c) (step_even e c h)

/-- C10 counterexample: confirming with 0 selected minutes (reachable by
increase, decrease, confirm) sets the target to the current elapsed count,
and the very next tick fires the alarm with `seconds_passed = 2` strictly
above the target 0 — the alarm does not always fire with the counter equal
to the target. -/
theorem alarm_fires_strictly_above_target :
    (run [Event.yellow true 300, Event.red 600, Event.blue 900, Event.tick] initClock).state
      = ALARM_RINGING ∧
    (run [Event.yellow true 300, Event.red 600, Event.blue 900, Event.tick] initClock).seconds_passed
      = 2 ∧
    (run [Event.yellow true 300, Event.red 600, Event.blue 900, Event.tick] initClock).seconds_for_alarm_start
      = 0 ∧
    (run [Event.yellow true 300, Event.red 600, Event.blue 900, Event.tick] initClock).seconds_passed
      ≠ (run [Event.yellow true 300, Event.red 600, Event.blue 900, Event.tick] initClock).seconds_for_alarm_start := by
  decide

/-- C10 (amended): `seconds_passed` and `seconds_for_alarm_start` are always
even in every reachable state, and whenever the state is Armed with the
target strictly ahead of the (even) counter and inside the 16-bit range, a
tick fires the alarm exactly when the advanced counter equals the target. -/
theorem elapsed_and_target_even_and_exact_fire :
    (∀ evs : List Event,
      2 ∣ (run evs initClock).seconds_passed ∧
      2 ∣ (run evs initClock).seconds_for_alarm_start) ∧
    (∀ d : Clock, d.state = ALARM_SET →
      2 ∣ d.seconds_passed → 2 ∣ d.seconds_for_alarm_start →
      d.seconds_passed < d.seconds_for_alarm_start →
      d.seconds_for_alarm_start < UINT_MOD →
      ((timer1_compa d).state = ALARM_RINGING ↔
        (timer1_compa d).seconds_passed = d.seconds_for_alarm_start)) := by
  constructor
  · intro evs
    exact run_even evs initClock (by decide)
  · intro d hs h2s h2t hlt hb
    have hU : UINT_MOD = 65536 := by decide
    have hE2 : (d.seconds_passed + 2) % UINT_MOD = d.seconds_passed + 2 := by
      apply Nat.mod_eq_of_lt
      omega
    simp only [timer1_compa, hE2]
    split_ifs with hc
    · have hge : d.seconds_passed + 2 ≥ d.seconds_for_alarm_start := hc.1
      have heq : d.seconds_passed + 2 = d.seconds_for_alarm_start := by omega
      show (d.state + 1 = ALARM_RINGING ↔ d.seconds_passed + 2 = d.seconds_for_alarm_start)
      rw [hs]
      simp [ALARM_SET, ALARM_RINGING, heq]
    · have hng : ¬ (d.seconds_passed + 2 ≥ d.seconds_for_alarm_start) := by
        intro hge
        exact hc ⟨hge, hs⟩
      show (d.state = ALARM_RINGING ↔ d.seconds_passed + 2 = d.seconds_for_alarm_start)
      rw [hs]
      simp only [ALARM_SET, ALARM_RINGING]
      constructor
      · intro h23; omega
      · intro hq; omega

/-- Witness for the parity-and-exact-fire theorem: one tick from boot keeps
both counters even, and from an Armed state with counter 2 and target 4 the
tick fires exactly at the target. -/
theorem elapsed_and_target_even_and_exact_fire_witness :
    (2 ∣ (run [Event.tick] initClock).seconds_passed ∧
      2 ∣ (run [Event.tick] initClock).seconds_for_alarm_start) ∧
    ((timer1_compa { initClock with state := 2, seconds_passed := 2, seconds_for_alarm_start := 4 }).state
        = ALARM_RINGING ↔
      (timer1_compa { initClock with state := 2, seconds_passed := 2, seconds_for_alarm_start := 4 }).seconds_passed
        = 4) :=
  ⟨elapsed_and_target_even_and_exact_fire.1 [Event.tick],
   elapsed_and_target_even_and_exact_fire.2
     { initClock with state := 2, seconds_passed := 2, seconds_for_alarm_start := 4 }
     rfl (by decide) (by decide) (by decide) (by decide)⟩

/-- C8 counterexample: increase three times (entering SettingAlarm sets the
counter to 1, two more presses reach 3), then confirm. The state leaves
SettingAlarm for Armed, yet `number_of_minutes_selected` still holds the
previously selected value 3 — nothing resets it on the way out. -/
theorem minutes_retained_after_leaving_setting :
    (run [Event.yellow true 300, Event.yellow true 600, Event.yellow true 900]
      initClock).state = SETTING_ALARM ∧
    (run [Event.yellow true 300, Event.yellow true 600, Event.yellow true 900]
      initClock).number_of_minutes_selected = 3 ∧
    (run [Event.yellow true 300, Event.yellow true 600, Event.yellow true 900, Event.blue 1200]
      initClock).state = ALARM_SET ∧
    (run [Event.yellow true 300, Event.yellow true 600, Event.yellow true 900, Event.blue 1200]
      initClock).number_of_minutes_selected = 3 := by
  decide

/-- C8 (amended): an accepted increase in Idle enters SettingAlarm with the
counter set to 1; the transitions that leave SettingAlarm or Ringing never
touch the counter (its stale value is merely overwritten by the 1 stored on
the next entry). -/
theorem minutes_lifecycle (t : Nat) (c : Clock) :
    (c.state = INITIAL_STATE →
      wsub t c.last_yellow_button_push ≥ MINIMUM_TIME_BETWEEN_BUTTON_PRESSES_MILLIS →
      (pcint2 true t c).state = SETTING_ALARM ∧
      (pcint2 true t c).number_of_minutes_selected = 1) ∧
    ((int0 t c).number_of_minutes_selected = c.number_of_minutes_selected) ∧
    (c.state = ALARM_RINGING →
      (int1 t c).number_of_minutes_selected = c.number_of_minutes_selected ∧
      (pcint2 true t c).number_of_minutes_selected = c.number_of_minutes_selected) := by
  refine ⟨?_, ?_, ?_⟩
  · intro hs hacc
    simp [pcint2, hacc, hs, INITIAL_STATE, SETTING_ALARM, ALARM_RINGING]
  · simp only [int0]
    split_ifs <;> rfl
  · intro hs
    constructor
    · by_cases hacc : wsub t c.last_red_button_push ≥ MINIMUM_TIME_BETWEEN_BUTTON_PRESSES_MILLIS
      · simp [int1, hacc, hs, SETTING_ALARM, ALARM_RINGING]
      · rw [int1_rejected t c hacc]
    · by_cases hacc : wsub t c.last_yellow_button_push ≥ MINIMUM_TIME_BETWEEN_BUTTON_PRESSES_MILLIS
      · simp [pcint2, hacc, hs, INITIAL_STATE, SETTING_ALARM, ALARM_RINGING]
      · rw [pcint2_rejected t c hacc]

/-- Witness for the amended lifecycle theorem at boot: the first accepted
increase enters SettingAlarm with exactly one minute selected. -/
theorem minutes_lifecycle_witness :
    (pcint2 true 300 initClock).state = SETTING_ALARM ∧
    (pcint2 true 300 initClock).number_of_minutes_selected = 1 :=
  (minutes_lifecycle 300 initClock).1 rfl (by decide)

lemma timer1_no_fire (c : Clock)
    (h : (c.seconds_passed + 2) % UINT_MOD < c.seconds_for_alarm_start) :
    timer1_compa c = { c with seconds_passed := (c.seconds_passed + 2) % UINT_MOD } := by
  simp only [timer1_compa]
  split_ifs with hc
  · exact absurd (show c.seconds_for_alarm_start ≤ (c.seconds_passed + 2) % UINT_MOD from hc.1)
      (Nat.not_le_of_lt h)
  · rfl

lemma timer1_fire (c : Clock) (hs : c.state = ALARM_SET)
    (h : (c.seconds_passed + 2) % UINT_MOD ≥ c.seconds_for_alarm_start) :
    timer1_compa c = { c with seconds_passed := (c.seconds_passed + 2) % UINT_MOD,
                              state := c.state + 1, changed_state := true } := by
  simp only [timer1_compa]
  split_ifs with hc
  · rfl
  · exact absurd ⟨h, hs⟩ hc

lemma tickN_succ (n : Nat) (c : Clock) : tickN (n + 1) c = timer1_compa (tickN n c) := rfl

lemma tickN_armed (c : Clock) (hs : c.state = ALARM_SET)
    (hT : c.seconds_for_alarm_start ≤ UINT_MOD) :
    ∀ n : Nat, c.seconds_passed + 2 * n < c.seconds_for_alarm_start →
      (tickN n c).state = ALARM_SET ∧
      (tickN n c).seconds_passed = c.seconds_passed + 2 * n ∧
      (tickN n c).seconds_for_alarm_start = c.seconds_for_alarm_start := by
  intro n
  induction n with
  | zero =>
      intro _
      exact ⟨hs, by simp [tickN], rfl⟩
  | succ n ih =>
      intro hlt
      obtain ⟨ih1, ih2, ih3⟩ := ih (by omega)
      have hmod : ((tickN n c).seconds_passed + 2) % UINT_MOD
          = c.seconds_passed + 2 * (n + 1) := by
        rw [ih2]
        rw [Nat.mod_eq_of_lt (by omega)]
        omega
      have hcond : ((tickN n c).seconds_passed + 2) % UINT_MOD
          < (tickN n c).seconds_for_alarm_start := by
        rw [hmod, ih3]
        omega
      rw [tickN_succ, timer1_no_fire (tickN n c) hcond]
      exact ⟨ih1, hmod, ih3⟩

lemma int0_confirm (t : Nat) (c : Clock)
    (hacc : wsub t c.last_blue_button_push ≥ MINIMUM_TIME_BETWEEN_BUTTON_PRESSES_MILLIS)
    (hs : c.state = SETTING_ALARM) :
    int0 t c = { c with
      last_blue_button_push := t,
      state := c.state + 1,
      changed_state := true,
      seconds_for_alarm_start := (c.seconds_passed +
        NUMBER_OF_SECONDS_IN_A_MINUTE * c.number_of_minutes_selected) % UINT_MOD } := by
  simp only [int0]
  split_ifs
  rfl

/-- C1: from SettingAlarm with M ≥ 1 minutes selected and the counter at E,
an accepted confirm press arms the alarm with target E + 60·M; each tick
adds 2 to the counter, the state stays Armed on every one of the first
30·M − 1 ticks, becomes Ringing exactly on tick 30·M (whose new counter
value first reaches the target, and reaches it exactly), and a tick in any
state other than Armed never changes the state. -/
theorem confirm_roundtrip_rings_at_exact_boundary (c : Clock) (t M : Nat)
    (hs : c.state = SETTING_ALARM)
    (hM : c.number_of_minutes_selected = M)
    (h1M : 1 ≤ M)
    (hacc : wsub t c.last_blue_button_push ≥ MINIMUM_TIME_BETWEEN_BUTTON_PRESSES_MILLIS)
    (hov : c.seconds_passed + 60 * M < UINT_MOD) :
    (int0 t c).state = ALARM_SET ∧
    (int0 t c).seconds_for_alarm_start = c.seconds_passed + 60 * M ∧
    (∀ k : Nat, k < 30 * M → (tickN k (int0 t c)).state = ALARM_SET) ∧
    (tickN (30 * M) (int0 t c)).state = ALARM_RINGING ∧
    (tickN (30 * M) (int0 t c)).seconds_passed = (int0 t c).seconds_for_alarm_start ∧
    (∀ d : Clock, d.state ≠ ALARM_SET → (timer1_compa d).state = d.state) ∧
    (∀ d : Clock, (timer1_compa d).seconds_passed = (d.seconds_passed + 2) % UINT_MOD) := by
  have hmul : NUMBER_OF_SECONDS_IN_A_MINUTE * c.number_of_minutes_selected = 60 * M := by
    rw [hM]
    have : NUMBER_OF_SECONDS_IN_A_MINUTE = 60 := by decide
    rw [this]
  have hconf := int0_confirm t c hacc hs
  have hstate : (int0 t c).state = ALARM_SET := by
    rw [hconf]
    show c.state + 1 = ALARM_SET
    rw [hs]; decide
  have hsec : (int0 t c).seconds_passed = c.seconds_passed := by rw [hconf]
  have htarget : (int0 t c).seconds_for_alarm_start = c.seconds_passed + 60 * M := by
    rw [hconf]
    show (c.seconds_passed + NUMBER_OF_SECONDS_IN_A_MINUTE * c.number_of_minutes_selected)
        % UINT_MOD = c.seconds_passed + 60 * M
    rw [hmul, Nat.mod_eq_of_lt hov]
  have harmed := tickN_armed (int0 t c) hstate (by rw [htarget]; omega)
  refine ⟨hstate, htarget, ?_, ?_, ?_, ?_, ?_⟩
  · intro k hk
    exact (harmed k (by rw [hsec, htarget]; omega)).1
  · have h30 : 30 * M = (30 * M - 1) + 1 := by omega
    obtain ⟨ha1, ha2, ha3⟩ := harmed (30 * M - 1) (by rw [hsec, htarget]; omega)
    have hge : ((tickN (30 * M - 1) (int0 t c)).seconds_passed + 2) % UINT_MOD
        ≥ (tickN (30 * M - 1) (int0 t c)).seconds_for_alarm_start := by
      rw [ha2, ha3, hsec, htarget, Nat.mod_eq_of_lt (by omega)]
      omega
    rw [h30, tickN_succ, timer1_fire _ ha1 hge]
    show (tickN (30 * M - 1) (int0 t c)).state + 1 = ALARM_RINGING
    rw [ha1]; decide
  · have h30 : 30 * M = (30 * M - 1) + 1 := by omega
    obtain ⟨ha1, ha2, ha3⟩ := harmed (30 * M - 1) (by rw [hsec, htarget]; omega)
    have hge : ((tickN (30 * M - 1) (int0 t c)).seconds_passed + 2) % UINT_MOD
        ≥ (tickN (30 * M - 1) (int0 t c)).seconds_for_alarm_start := by
      rw [ha2, ha3, hsec, htarget, Nat.mod_eq_of_lt (by omega)]
      omega
    rw [h30, tickN_succ, timer1_fire _ ha1 hge]
    show ((tickN (30 * M - 1) (int0 t c)).seconds_passed + 2) % UINT_MOD
        = (int0 t c).seconds_for_alarm_start
    rw [ha2, hsec, htarget, Nat.mod_eq_of_lt (by omega)]
    omega
  · intro d hd
    simp only [timer1_compa]
    split_ifs with hc
    · exact absurd (show d.state = ALARM_SET from hc.2) hd
    · rfl
  · intro d
    simp only [timer1_compa]
    split_ifs <;> rfl

/-- Witness for the round-trip theorem: after entering SettingAlarm (one
accepted increase from boot), confirming with 1 minute selected arms with
target 60, tick 29 still shows Armed and tick 30 rings. -/
theorem confirm_roundtrip_rings_at_exact_boundary_witness :
    (int0 600 (pcint2 true 300 initClock)).state = ALARM_SET ∧
    (tickN 29 (int0 600 (pcint2 true 300 initClock))).state = ALARM_SET ∧
    (tickN 30 (int0 600 (pcint2 true 300 initClock))).state = ALARM_RINGING := by
  have h := confirm_roundtrip_rings_at_exact_boundary (pcint2 true 300 initClock) 600 1
    (by decide) (by decide) (by decide) (by decide) (by decide)
  exact ⟨h.1, h.2.2.1 29 (by decide), h.2.2.2.1⟩

lemma loopRest_changed (now : Nat) (c : Clock) (o : LoopOut) :
    ((loopRest now c o).1).changed_state = c.changed_state := by
  simp only [loopRest]
  split_ifs <;> rfl

lemma loopRest_lcd (now : Nat) (c : Clock) (o : LoopOut) :
    ((loopRest now c o).2).lcdCleared = o.lcdCleared := by
  simp only [loopRest]
  split_ifs <;> rfl

lemma loopRest_motor_of_not_ringing (now : Nat) (c : Clock) (o : LoopOut)
    (h : c.state ≠ ALARM_RINGING) :
    ((loopRest now c o).2).motor = o.motor := by
  simp only [loopRest]
  split_ifs with h1 <;> first | rfl | exact absurd h1 h

/-- C5: every state-changing step of any of the four interrupt handlers
raises `changed_state`; a loop pass that observes the raised flag clears it
and clears the display, and performs the single entry action for the new
state — for `ALARM_RINGING` it resets the motion direction to `false`,
stamps the direction window with the current time and skips every other
output of the pass, while for every other state it stops the motor. -/
theorem state_change_flag_handoff :
    (∀ d : Clock, (timer1_compa d).state ≠ d.state → (timer1_compa d).changed_state = true) ∧
    (∀ (t : Nat) (d : Clock), (int0 t d).state ≠ d.state → (int0 t d).changed_state = true) ∧
    (∀ (t : Nat) (d : Clock), (int1 t d).state ≠ d.state → (int1 t d).changed_state = true) ∧
    (∀ (p : Bool) (t : Nat) (d : Clock),
      (pcint2 p t d).state ≠ d.state → (pcint2 p t d).changed_state = true) ∧
    (∀ (now : Nat) (d : Clock), d.changed_state = true →
      ((loopPass now d).1).changed_state = false ∧
      ((loopPass now d).2).lcdCleared = true ∧
      (d.state = ALARM_RINGING →
        ((loopPass now d).1).direction = false ∧
        ((loopPass now d).1).current_direction_start = now ∧
        ((loopPass now d).2).motor = none ∧
        ((loopPass now d).2).buzzer = none ∧
        ((loopPass now d).2).render = none) ∧
      (d.state ≠ ALARM_RINGING → ((loopPass now d).2).motor = some MotorCmd.stop)) := by
  refine ⟨?_, ?_, ?_, ?_, ?_⟩
  · intro d
    simp only [timer1_compa]
    split_ifs <;> simp
  · intro t d
    simp only [int0]
    split_ifs <;> simp
  · intro t d
    simp only [int1]
    split_ifs <;> simp
  · intro p t d
    simp only [pcint2]
    split_ifs <;> simp_all [INITIAL_STATE, SETTING_ALARM, ALARM_SET, ALARM_RINGING]
  · intro now d hcs
    by_cases hr : d.state = ALARM_RINGING
    · have : loopPass now d =
          ({ d with changed_state := false, direction := false, current_direction_start := now },
            { lcdCleared := true, forceCleared := false,
              render := none, buzzer := none, motor := none }) := by
        simp only [loopPass]
        split_ifs
        rfl
      rw [this]
      exact ⟨rfl, rfl, fun _ => ⟨rfl, rfl, rfl, rfl, rfl⟩, fun h => absurd hr h⟩
    · have : loopPass now d = loopRest now { d with changed_state := false }
          { lcdCleared := true, forceCleared := false,
            render := none, buzzer := none, motor := some MotorCmd.stop } := by
        simp only [loopPass]
        split_ifs
        rfl
      rw [this]
      refine ⟨loopRest_changed now _ _, loopRest_lcd now _ _, fun h => absurd h hr, fun _ => ?_⟩
      exact loopRest_motor_of_not_ringing now _ _ hr

/-- Witness for the handoff theorem: the tick that fires the alarm raises
the flag, and a loop pass at 1000 ms on that ringing state clears the flag,
resets the direction, stamps the window start, and suppresses all outputs. -/
theorem state_change_flag_handoff_witness :
    (timer1_compa { initClock with state := 2 }).changed_state = true ∧
    ((loopPass 1000 { initClock with state := 3, changed_state := true }).1).changed_state = false ∧
    ((loopPass 1000 { initClock with state := 3, changed_state := true }).1).current_direction_start = 1000 ∧
    ((loopPass 1000 { initClock with state := 3, changed_state := true }).2).motor = none := by
  have h1 := state_change_flag_handoff.1 { initClock with state := 2 } (by decide)
  have h2 := state_change_flag_handoff.2.2.2.2 1000
    { initClock with state := 3, changed_state := true } rfl
  exact ⟨h1, h2.1, (h2.2.2.1 rfl).2.1, (h2.2.2.1 rfl).2.2.1⟩

/-- C6: on a loop pass in `ALARM_RINGING` with the flag already consumed,
the ringing instructions are rendered and the state is untouched; if the
wall clock has advanced at least 3500 ms past `current_direction_start` the
pass flips `direction`, restamps the window start with the current time and
issues no motor or buzzer command; otherwise `direction` and the window
start are kept, and the pass sounds the buzzer and drives forward when
`direction` is true, silences the buzzer and drives backward when it is
false. -/
theorem ringing_motion_oscillation (now : Nat) (d : Clock)
    (hcs : d.changed_state = false) (hr : d.state = ALARM_RINGING)
    (hmono : d.current_direction_start ≤ now) (hnow : now < ULONG_MOD) :
    ((loopPass now d).1).state = d.state ∧
    ((loopPass now d).2).render = some Render.ringingInfo ∧
    (now - d.current_direction_start ≥ BUZZING_TIME_MILLIS →
      ((loopPass now d).1).direction = !d.direction ∧
      ((loopPass now d).1).current_direction_start = now ∧
      ((loopPass now d).2).motor = none ∧
      ((loopPass now d).2).buzzer = none) ∧
    (now - d.current_direction_start < BUZZING_TIME_MILLIS →
      ((loopPass now d).1).direction = d.direction ∧
      ((loopPass now d).1).current_direction_start = d.current_direction_start ∧
      (d.direction = true →
        ((loopPass now d).2).buzzer = some true ∧
        ((loopPass now d).2).motor = some MotorCmd.forward) ∧
      (d.direction = false →
        ((loopPass now d).2).buzzer = some false ∧
        ((loopPass now d).2).motor = some MotorCmd.backward)) := by
  have hw : wsub now d.current_direction_start = now - d.current_direction_start :=
    wsub_eq_sub (lt_of_le_of_lt hmono hnow) hmono (by omega)
  have hpass : loopPass now d = loopRest now d
      { lcdCleared := false, forceCleared := false,
        render := none, buzzer := none, motor := none } := by
    simp only [loopPass]
    split_ifs with h1
    · exact absurd h1 (by rw [hcs]; exact Bool.false_ne_true)
    · rfl
  rw [hpass]
  by_cases hwin : now - d.current_direction_start ≥ BUZZING_TIME_MILLIS
  · have hrest : loopRest now d
        { lcdCleared := false, forceCleared := false,
          render := none, buzzer := none, motor := none } =
        ({ d with current_direction_start := now, direction := !d.direction },
          { lcdCleared := false, forceCleared := false,
            render := some Render.ringingInfo, buzzer := none, motor := none }) := by
      simp only [loopRest]
      split_ifs with h1 h2
      · rfl
      · rw [hw] at h1
        exact absurd hwin h1
      · rw [hw] at h1
        exact absurd hwin h1
    rw [hrest]
    exact ⟨rfl, rfl, fun _ => ⟨rfl, rfl, rfl, rfl⟩, fun h => absurd hwin (by omega)⟩
  · have hnot : ¬ wsub now d.current_direction_start ≥ BUZZING_TIME_MILLIS := by
      rw [hw]; exact hwin
    by_cases hdir : d.direction
    · have hrest : loopRest now d
          { lcdCleared := false, forceCleared := false,
            render := none, buzzer := none, motor := none } =
          (d,
            { lcdCleared := false, forceCleared := false,
              render := some Render.ringingInfo, buzzer := some true,
              motor := some MotorCmd.forward }) := by
        simp only [loopRest]
        split_ifs
        rfl
      rw [hrest]
      refine ⟨rfl, rfl, fun h => absurd h (by omega), fun _ => ⟨rfl, rfl, fun _ => ⟨rfl, rfl⟩, ?_⟩⟩
      intro hfalse
      rw [hdir] at hfalse
      exact absurd hfalse (by decide)
    · have hdirf : d.direction = false := Bool.eq_false_iff.mpr hdir
      have hrest : loopRest now d
          { lcdCleared := false, forceCleared := false,
            render := none, buzzer := none, motor := none } =
          (d,
            { lcdCleared := false, forceCleared := false,
              render := some Render.ringingInfo, buzzer := some false,
              motor := some MotorCmd.backward }) := by
        simp only [loopRest]
        split_ifs
        rfl
      rw [hrest]
      refine ⟨rfl, rfl, fun h => absurd h (by omega), fun _ => ⟨rfl, rfl, ?_, fun _ => ⟨rfl, rfl⟩⟩⟩
      intro htrue
      rw [hdirf] at htrue
      exact absurd htrue (by decide)

/-- Witness for the oscillation theorem: in Ringing with the window started
at 0, a pass at 3500 ms flips the direction and issues no actuation, and a
pass at 1000 ms keeps the (false) direction, silences the buzzer and drives
backward. -/
theorem ringing_motion_oscillation_witness :
    ((loopPass 3500 { initClock with state := 3 }).1).direction = true ∧
    ((loopPass 3500 { initClock with state := 3 }).2).motor = none ∧
    ((loopPass 1000 { initClock with state := 3 }).2).buzzer = some false ∧
    ((loopPass 1000 { initClock with state := 3 }).2).motor = some MotorCmd.backward := by
  have h1 := ringing_motion_oscillation 3500 { initClock with state := 3 }
    rfl rfl (by decide) (by decide)
  have h2 := ringing_motion_oscillation 1000 { initClock with state := 3 }
    rfl rfl (by decide) (by decide)
  exact ⟨(h1.2.2.1 (by decide)).1, (h1.2.2.1 (by decide)).2.2.1,
    ((h2.2.2.2 (by decide)).2.2.2 rfl).1, ((h2.2.2.2 (by decide)).2.2.2 rfl).2⟩

end AlarmClock
